import Mathlib

/-
Verification of the AuditDapps security-posture scoring engine.

The development shallowly embeds:
  * the severity/mitigation normalizers of src/pages/ContinueAudit.tsx
    (normSeverity / normMitigation) and src/pages/AuditDetail.tsx
    (normSev / normMit),
  * the dashboard score helper computeScoreFromCounts of
    src/pages/Dashboard.tsx,
  * the safeScore / auditInsertPayload pipeline of
    src/pages/ContinueAudit.tsx,
  * the FNV-1a key construction of src/pages/AuditDetail.tsx,
  * and, modelled from the specification (their source files
    src/scoring/baseline.ts and src/utils/riskUtils.ts are not part of the
    provided sources; only their tests and call sites are), the Baseline
    Findings Builder, the Risk Aggregator / Posture Scorer and the
    Markdown Finding Parser.

JavaScript strings are modelled as Lean String values; the JS string
helpers used by the code (toLowerCase, trim, split) are modelled by
explicit List Char functions below so that every definition evaluates
inside the kernel.  JS numbers are modelled as ℚ together with an
explicit not-finite marker where Number.isFinite checks occur;
Math.round x is ⌊x + 1/2⌋, which is exactly Mathlib round.
-/

/- ===== generic string helpers (models of the JS string built-ins) ===== -/

/-- Model of JS toLowerCase restricted to ASCII letters (the only inputs the
normalizers compare against). -/
def lowerChar (c : Char) : Char :=
  if 'A' ≤ c ∧ c ≤ 'Z' then Char.ofNat (c.toNat + 32) else c

/-- Model of JS String.prototype.toLowerCase. -/
def lowerStr (s : String) : String := String.mk (s.data.map lowerChar)

/-- Space-like characters removed by trimming. -/
def isSpaceChar (c : Char) : Bool := c = ' ' || c = '\t' || c = '\r'

/-- Model of JS String.prototype.trim on character lists. -/
def trimList (l : List Char) : List Char :=
  ((l.dropWhile isSpaceChar).reverse.dropWhile isSpaceChar).reverse

/-- Helper of splitLines: accumulates the current line (reversed). -/
def splitLinesAux : List Char → List Char → List (List Char)
  | cur, [] => [cur.reverse]
  | cur, c :: tl =>
      if c = '\n' then cur.reverse :: splitLinesAux [] tl
      else splitLinesAux (c :: cur) tl

/-- Model of narrative.split of a newline: the list of lines. -/
def splitLines (l : List Char) : List (List Char) := splitLinesAux [] l

/- ===== the shared Finding shape ===== -/

/-- Severity enumeration of the data model (section 3 of the spec). -/
inductive Severity
  | critical
  | high
  | medium
  | low
deriving DecidableEq, Repr

/-- Mitigation level enumeration: noMit, halfMit, fullMit embed the source
values "none", "partial" and "full". -/
inductive Mitigation
  | noMit
  | halfMit
  | fullMit
deriving DecidableEq, Repr

/-- Likelihood enumeration of the data model. -/
inductive Likelihood
  | veryLikely
  | likely
  | possible
  | unlikely
  | rare
deriving DecidableEq, Repr

/-- Canonical finding record shared by Builder, Aggregator and Parser. -/
structure Finding where
  text : String
  severity : Severity
  likelihood : Option Likelihood
  mitigation : Mitigation
deriving DecidableEq, Repr

/- ===== normalizers from src/pages/ContinueAudit.tsx and AuditDetail.tsx ===== -/

/-- Embeds normSeverity of src/pages/ContinueAudit.tsx: lowercase the input
(undefined becomes the empty string) and map unrecognized values to
"Medium". -/
def normSeverity (s : Option String) : String :=
  if lowerStr (s.getD "") = "critical" then "Critical"
  else if lowerStr (s.getD "") = "high" then "High"
  else if lowerStr (s.getD "") = "medium" then "Medium"
  else if lowerStr (s.getD "") = "low" then "Low"
  else "Medium"

/-- Embeds normMitigation of src/pages/ContinueAudit.tsx. -/
def normMitigation (m : Option String) : String :=
  if lowerStr (m.getD "") = "full" then "full"
  else if lowerStr (m.getD "") = "partial" then "partial"
  else "none"

/-- Embeds normSev of src/pages/AuditDetail.tsx: same shape as normSeverity
but the fallback branch returns "Low". -/
def normSev (s : Option String) : String :=
  if lowerStr (s.getD "") = "critical" then "Critical"
  else if lowerStr (s.getD "") = "high" then "High"
  else if lowerStr (s.getD "") = "medium" then "Medium"
  else if lowerStr (s.getD "") = "low" then "Low"
  else "Low"

/-- Embeds normMit of src/pages/AuditDetail.tsx (same body as
normMitigation). -/
def normMit (m : Option String) : String :=
  if lowerStr (m.getD "") = "full" then "full"
  else if lowerStr (m.getD "") = "partial" then "partial"
  else "none"

/-- Recognized severity inputs: the four values the normalizers compare
against after lowercasing. -/
def recognizedSeverityInput (s : Option String) : Prop :=
  lowerStr (s.getD "") ∈ (["critical", "high", "medium", "low"] : List String)

/-- Recognized mitigation inputs after lowercasing. -/
def recognizedMitigationInput (m : Option String) : Prop :=
  lowerStr (m.getD "") ∈ (["none", "partial", "full"] : List String)

instance (s : Option String) : Decidable (recognizedSeverityInput s) := by
  unfold recognizedSeverityInput
  infer_instance

instance (m : Option String) : Decidable (recognizedMitigationInput m) := by
  unfold recognizedMitigationInput
  infer_instance

/- ===== Risk Aggregator and Posture Scorer ===== -/

/-- Modelled from the spec: severity weight table of posturePercent
(section 4.3); the implementation file src/utils/riskUtils.ts is not among
the provided sources. -/
def severityWeight : Severity → ℚ
  | .critical => 40
  | .high => 20
  | .medium => 10
  | .low => 5

/-- Modelled from the spec: mitigation multiplier table of posturePercent
(section 4.3). -/
def mitigationMultiplier : Mitigation → ℚ
  | .noMit => 1
  | .halfMit => 1 / 2
  | .fullMit => 0

/-- Aggregate counts per severity and mitigation bucket. -/
def RiskTotals : Type := Severity → Mitigation → Nat

/-- Enumeration of the severities in catalog order. -/
def sevList : List Severity := [.critical, .high, .medium, .low]

/-- Enumeration of the mitigation buckets. -/
def mitList : List Mitigation := [.noMit, .halfMit, .fullMit]

/-- Modelled from the spec: total deduction of posturePercent, iterating the
severities and, inside each, the mitigation buckets. -/
def deduction (t : RiskTotals) : ℚ :=
  (sevList.map (fun s =>
    (mitList.map (fun m =>
      (t s m : ℚ) * severityWeight s * mitigationMultiplier m)).sum)).sum

/-- Modelled from the spec: posturePercent of src/utils/riskUtils.ts —
100 minus the deduction, clamped to the interval from 0 to 100 and rounded
to the nearest integer. -/
def posturePercent (t : RiskTotals) : ℤ :=
  round (max 0 (min 100 (100 - deduction t)))

/-- Flat list of all severity/mitigation buckets, used by the independent
restatement of the spec formula. -/
def bucketList : List (Severity × Mitigation) :=
  sevList.flatMap (fun s => mitList.map (fun m => (s, m)))

/-- Restatement of the spec sentence "score = 100 − Σ over all
(severity, mitigation) buckets of count × severityWeight × multiplier,
clamped to the interval from 0 to 100 and rounded", written as a single sum
over the flat bucket list; compared against posturePercent in C1. -/
def specScore (t : RiskTotals) : ℤ :=
  round (max 0 (min 100
    (100 - (bucketList.map (fun p =>
      (t p.1 p.2 : ℚ) * severityWeight p.1 * mitigationMultiplier p.2)).sum)))

/-- Totals holding a single count of one in the given bucket. -/
def singleBucket (s : Severity) (m : Mitigation) : RiskTotals :=
  fun s2 m2 => if s2 = s ∧ m2 = m then 1 else 0

/-- Totals with one more finding in the given bucket. -/
def bumpBucket (t : RiskTotals) (s : Severity) (m : Mitigation) : RiskTotals :=
  fun s2 m2 => if s2 = s ∧ m2 = m then t s2 m2 + 1 else t s2 m2

/-- Totals after moving one finding of severity s from bucket m1 to bucket
m2 (used with distinct source and target buckets). -/
def moveBucket (t : RiskTotals) (s : Severity) (m1 m2 : Mitigation) : RiskTotals :=
  fun s2 m2' =>
    if s2 = s ∧ m2' = m1 then t s2 m2' - 1
    else if s2 = s ∧ m2' = m2 then t s2 m2' + 1
    else t s2 m2'

/- ===== Baseline Findings Builder ===== -/

/-- Modelled from the spec: the affirmative sentinel. -/
def yesSentinel : String := "Yes"

/-- Modelled from the spec: the not-applicable sentinel. -/
def naSentinel : String := "Not applicable (N/A)"

/-- Catalog entry: question key, default severity, critical weight. -/
structure Control where
  question : String
  defaultSeverity : Severity
  criticalWeight : Bool
deriving DecidableEq, Repr

/-- The Builder input: a mapping from control question to the selected
answer labels; none models an absent key. -/
def ResponseSet : Type := String → Option (List String)

/-- Per-control classification of the Builder (spec section 4.2). -/
inductive AnswerClass
  | missing
  | contradiction
  | satisfied
  | excluded
  | unanswered
deriving DecidableEq, Repr

/-- Modelled from the spec: the five classification steps of section 4.2.
An absent key or empty list yields no finding; a list made solely of the
not-applicable sentinel excludes the control; a list containing the
affirmative sentinel together with another non-N/A label is a
contradiction; the affirmative sentinel with at most N/A labels besides it
is satisfied; any other non-empty list is missing. -/
def classifyAnswers (ans : List String) : AnswerClass :=
  if ans = [] then .unanswered
  else if ∀ a ∈ ans, a = naSentinel then .excluded
  else if yesSentinel ∈ ans then
    (if ∃ a ∈ ans, a ≠ yesSentinel ∧ a ≠ naSentinel then .contradiction
     else .satisfied)
  else .missing

/-- Modelled from the spec: fixed text of a missing-control finding,
the marker "control missing:" followed by the control's question. -/
def missingText (q : String) : String := "control missing: " ++ q

/-- Modelled from the spec: fixed text of a contradiction finding, carrying
the required marker phrase followed by the control's question. -/
def contraText (q : String) : String := "conflicting answers detected: " ++ q

/-- The verbatim phrase required inside the global red-flag finding. -/
def redFlagPhrase : String := "Widespread absence of baseline controls"

/-- Modelled from the spec: text of the synthetic global red-flag finding —
the fixed phrase plus a short elaboration. -/
def redFlagText : String :=
  "Widespread absence of baseline controls: most critical safeguards are missing."

/-- Modelled from the spec: the synthetic global red-flag finding appended
by the Builder (severity Critical, mitigation none). -/
def redFlagFinding : Finding :=
  { text := redFlagText
  , severity := .critical
  , likelihood := none
  , mitigation := .noMit }

/-- Classification of one control against a response set. -/
def classifyControl (r : ResponseSet) (c : Control) : AnswerClass :=
  classifyAnswers ((r c.question).getD [])

/-- Modelled from the spec: the finding (when any) the Builder emits for one
control — mitigation none with the missing marker for a missing control,
mitigation partial with the contradiction marker for a contradictorily
answered control, nothing otherwise. -/
def perControlFinding (r : ResponseSet) (c : Control) : Option Finding :=
  if classifyControl r c = .missing then
    some { text := missingText c.question
         , severity := c.defaultSeverity
         , likelihood := none
         , mitigation := .noMit }
  else if classifyControl r c = .contradiction then
    some { text := contraText c.question
         , severity := c.defaultSeverity
         , likelihood := none
         , mitigation := .halfMit }
  else none

/-- Number of critical-weighted controls of the catalog that resolve to
missing. -/
def missingCritCount (cat : List Control) (r : ResponseSet) : Nat :=
  (cat.filter Control.criticalWeight).countP
    (fun c => classifyControl r c = AnswerClass.missing)

/-- Modelled from the spec: the super-majority red-flag check.  The spec
leaves the exact threshold open (section 9) and pins down only the
five-of-five reference case; the model trips the flag when at least four
fifths of the critical-weighted controls are missing. -/
def redFlagTripped (cat : List Control) (r : ResponseSet) : Bool :=
  let total := (cat.filter Control.criticalWeight).length
  decide (0 < total) && decide (4 * total ≤ 5 * missingCritCount cat r)

/-- Modelled from the spec: buildBaselineFindings of src/scoring/baseline.ts
— the per-control findings in catalog order followed by the synthetic
red-flag finding when the check trips. -/
def buildBaselineFindings (cat : List Control) (r : ResponseSet) : List Finding :=
  cat.filterMap (perControlFinding r) ++
    (if redFlagTripped cat r then [redFlagFinding] else [])

/-- Modelled from the spec and the test suite: the organization catalog.
The five questions and the critical default of the incident-response
control come from src/scoring/baseline.test.ts; the remaining default
severities are not pinned down by the reference behavior and are chosen
arbitrarily; all five controls are critical-weighted, matching the
five-of-five red-flag test. -/
def catOrg : List Control :=
  [ ⟨"Do you have an incident response plan?", .critical, true⟩
  , ⟨"Are administrative keys rotated?", .high, true⟩
  , ⟨"Do you enforce least privilege access control?", .high, true⟩
  , ⟨"Do you have emergency pause circuit breaker?", .medium, true⟩
  , ⟨"Do you use secure protocols like TLS/HTTPS?", .medium, true⟩ ]

/-- Decidable selector for the findings attributable to the control with
question q: those carrying its missing or contradiction text. -/
def controlFilter (q : String) (f : Finding) : Bool :=
  f.text == missingText q || f.text == contraText q

/-- Decidable selector for findings whose text contains the red-flag
phrase. -/
def phraseFilter (f : Finding) : Bool :=
  decide (redFlagPhrase.data <:+: f.text.data)

/- ===== Markdown Finding Parser ===== -/

/-- ASCII letter test used when stripping decorative glyphs before a
heading word. -/
def isAsciiAlpha (c : Char) : Bool :=
  ('A' ≤ c && c ≤ 'Z') || ('a' ≤ c && c ≤ 'z')

/-- Modelled from the spec: severity-heading recognition — drop decorative
non-letter characters, lowercase, and match one of the four severity words
as a prefix (section 4.4). -/
def headingOf (line : List Char) : Option Severity :=
  let t := (line.dropWhile (fun c => !isAsciiAlpha c)).map lowerChar
  if "critical".data.isPrefixOf t then some .critical
  else if "high".data.isPrefixOf t then some .high
  else if "medium".data.isPrefixOf t then some .medium
  else if "low".data.isPrefixOf t then some .low
  else none

/-- Modelled from the spec: bullet-line recognition; returns the bullet body
when the line, after leading spaces, starts with a bullet marker. -/
def bulletBody (line : List Char) : Option (List Char) :=
  match line.dropWhile isSpaceChar with
  | '-' :: rest => some rest
  | '*' :: rest => some rest
  | '•' :: rest => some rest
  | _ => none

/-- Suffix of l after the first occurrence of pat, when pat occurs. -/
def afterPat (pat : List Char) : List Char → Option (List Char)
  | [] => none
  | c :: tl =>
      if pat.isPrefixOf (c :: tl) then some ((c :: tl).drop pat.length)
      else afterPat pat tl

/-- Value of a bracketed inline tag of the given label inside a bullet body,
when present: the text between the colon and the closing bracket,
trimmed. -/
def tagValue (label : String) (l : List Char) : Option String :=
  (afterPat (("[" ++ label ++ ":").data) l).map
    (fun rest => String.mk (trimList (rest.takeWhile (fun c => c ≠ ']'))))

/-- Removes every bracketed span from a bullet body; the flag records
whether the scan is inside a bracket. -/
def stripTagsAux : Bool → List Char → List Char
  | _, [] => []
  | true, c :: tl =>
      if c = ']' then stripTagsAux false tl else stripTagsAux true tl
  | false, c :: tl =>
      if c = '[' then stripTagsAux true tl else c :: stripTagsAux false tl

/-- Surrounding punctuation trimmed from a bullet text. -/
def isPunctChar (c : Char) : Bool :=
  isSpaceChar c || c = '.' || c = ',' || c = ';' || c = ':'

/-- Bullet text after tag stripping and punctuation trimming. -/
def cleanText (l : List Char) : String :=
  String.mk
    (((stripTagsAux false l).dropWhile isPunctChar).reverse.dropWhile
      isPunctChar).reverse

/-- Modelled from the spec: recognized likelihood tag values; anything else
degrades to untagged. -/
def parseLikelihood (v : String) : Option Likelihood :=
  let t := lowerStr v
  if t = "very likely" then some .veryLikely
  else if t = "likely" then some .likely
  else if t = "possible" then some .possible
  else if t = "unlikely" then some .unlikely
  else if t = "rare" then some .rare
  else none

/-- Modelled from the spec: recognized mitigation tag values. -/
def parseMitigation (v : String) : Option Mitigation :=
  let t := lowerStr v
  if t = "none" then some .noMit
  else if t = "partial" then some .halfMit
  else if t = "full" then some .fullMit
  else none

/-- Finding emitted for one bullet body under the active severity:
tag-stripped trimmed text, extracted likelihood (or none) and extracted
mitigation (defaulting to none when untagged or unrecognized). -/
def mkBulletFinding (sev : Severity) (body : List Char) : Finding :=
  { text := cleanText body
  , severity := sev
  , likelihood := (tagValue "likelihood" body).bind parseLikelihood
  , mitigation := ((tagValue "mitigation" body).bind parseMitigation).getD .noMit }

/-- One step of the line-oriented state machine: the state is the active
severity (none before any heading) and the findings emitted so far.
Bullets before a heading are dropped silently; lines that are neither
bullet nor heading are skipped. -/
def parseStep (st : Option Severity × List Finding) (line : List Char) :
    Option Severity × List Finding :=
  match bulletBody line with
  | some body =>
      match st.1 with
      | some sev => (st.1, st.2 ++ [mkBulletFinding sev body])
      | none => st
  | none =>
      match headingOf line with
      | some sev => (some sev, st.2)
      | none => st

/-- Modelled from the spec: parseFindings of src/utils/riskUtils.ts — a
single pass over the narrative's lines, a total function. -/
def parseFindings (narrative : String) : List Finding :=
  ((splitLines narrative.data).foldl parseStep (none, [])).2

/- ===== computeScoreFromCounts from src/pages/Dashboard.tsx ===== -/

/-- Shape of the counts column: every per-severity field may be absent. -/
structure CountsRec where
  critical : Option ℤ
  high : Option ℤ
  medium : Option ℤ
  low : Option ℤ
deriving DecidableEq, Repr

/-- Embeds computeScoreFromCounts of src/pages/Dashboard.tsx: a null counts
object and absent fields default to zero; the raw value
100 − 40c − 20h − 10m − 5l is clamped to the interval from 0 to 100 and
rounded. -/
def computeScoreFromCounts (counts : Option CountsRec) : ℤ :=
  let c := counts.getD ⟨none, none, none, none⟩
  let crit := c.critical.getD 0
  let hi := c.high.getD 0
  let med := c.medium.getD 0
  let lo := c.low.getD 0
  let raw : ℚ := 100 - 40 * crit - 20 * hi - 10 * med - 5 * lo
  round (max 0 (min 100 raw))

/- ===== safeScore pipeline from src/pages/ContinueAudit.tsx ===== -/

/-- A JS number as observed through Number.isFinite: either a finite
rational or not finite (NaN, an infinity, or a missing field coerced to
NaN). -/
inductive JSNumber
  | finite (q : ℚ)
  | notFinite
deriving DecidableEq

/-- Observable part of the summarizeBaseline result consumed by the
audit-continuation flow: its score and overallPct fields, each an
arbitrary JS number. -/
structure BaselineResult where
  score : JSNumber
  overallPct : JSNumber

/-- Embeds safeOverall of src/pages/ContinueAudit.tsx: the overall
percentage when finite, otherwise null. -/
def safeOverall (b : BaselineResult) : Option ℚ :=
  match b.overallPct with
  | .finite q => some q
  | .notFinite => none

/-- Embeds safeScore of src/pages/ContinueAudit.tsx: the rounded baseline
score clamped to the interval from 0 to 100 when finite; otherwise 100
minus the rounded overall percentage, clamped, when that is finite;
otherwise 0. -/
def safeScore (b : BaselineResult) : ℤ :=
  match b.score with
  | .finite q => max 0 (min 100 (round q))
  | .notFinite =>
      match safeOverall b with
      | some p => max 0 (min 100 (100 - round p))
      | none => 0

/-- Fields of the audits-table insert payload relevant to the persisted
score. -/
structure AuditInsertPayload where
  status : String
  score : ℤ
  overall_pct : Option ℤ
deriving DecidableEq

/-- Embeds the score-bearing part of auditInsertPayload of
src/pages/ContinueAudit.tsx. -/
def auditInsertPayload (b : BaselineResult) : AuditInsertPayload :=
  { status := "completed"
  , score := safeScore b
  , overall_pct := (safeOverall b).map (fun p => round p) }

/- ===== FNV-1a keys from src/pages/AuditDetail.tsx ===== -/

/-- One step of hashString: xor the character code in, then multiply by the
FNV prime inside 32 bits (Math.imul keeps the low 32 bits of the
product). -/
def hashStep (h : Nat) (c : Char) : Nat :=
  ((h ^^^ c.toNat) * 16777619) % 4294967296

/-- Embeds hashString of src/pages/AuditDetail.tsx: FNV-1a over the
character codes starting from the offset basis, reduced to 32 bits. -/
def hashString (s : String) : Nat := s.data.foldl hashStep 2166136261

/-- Lowercase hexadecimal digits. -/
def hexDigits : List Char := "0123456789abcdef".data

/-- Digit of a value below sixteen. -/
def hexDigitChar (n : Nat) : Char := hexDigits.getD n 'x'

/-- Model of JS Number.prototype.toString with radix sixteen on a
non-negative integer: most significant digit first, a single zero digit for
zero. -/
def toHex (n : Nat) : List Char :=
  if n < 16 then [hexDigitChar n]
  else toHex (n / 16) ++ [hexDigitChar (n % 16)]
termination_by n
decreasing_by exact Nat.div_lt_self (by omega) (by omega)

/-- Decimal digit of a value below ten. -/
def decDigitChar (n : Nat) : Char := "0123456789".data.getD n 'x'

/-- Model of the JS decimal rendering of a non-negative integer inside a
template literal. -/
def toDec (n : Nat) : List Char :=
  if n < 10 then [decDigitChar n]
  else toDec (n / 10) ++ [decDigitChar (n % 10)]
termination_by n
decreasing_by exact Nat.div_lt_self (by omega) (by omega)

/-- Raw stored baseline finding row as read back from the audits table; all
fields may be absent. -/
structure RawFinding where
  severity : Option String
  mitigation : Option String
  likelihood : Option String
  text : Option String
deriving DecidableEq

/-- Embeds the signature template of the findings useMemo of
src/pages/AuditDetail.tsx: normalized severity, normalized mitigation,
likelihood (empty when null) and text, joined by vertical bars. -/
def rawSignature (f : RawFinding) : String :=
  normSev f.severity ++ "|" ++ normMit f.mitigation ++ "|" ++
    f.likelihood.getD "" ++ "|" ++ f.text.getD ""

/-- Hex base string of one raw finding's signature. -/
def sigBase (f : RawFinding) : List Char := toHex (hashString (rawSignature f))

/-- Embeds the key construction of the findings useMemo: each finding's key
is its signature hash in hex followed by a dash and the per-base occurrence
number; occ carries the occurrence counts seen so far (the JS Map). -/
def buildKeysAux : (List Char → Nat) → List RawFinding → List String
  | _, [] => []
  | occ, f :: tl =>
      String.mk (sigBase f ++ '-' :: toDec (occ (sigBase f) + 1)) ::
        buildKeysAux (fun x => if x = sigBase f then occ (sigBase f) + 1 else occ x) tl

/-- Keys generated for a stored baseline findings list, in render order. -/
def findingKeys (raws : List RawFinding) : List String :=
  buildKeysAux (fun _ => 0) raws

/-- Splits a character list at its first dash: the part before it and the
part after it (identity-like on dash-free lists). -/
def splitDash : List Char → List Char × List Char
  | [] => ([], [])
  | c :: tl =>
      if c = '-' then ([], tl)
      else ((c :: (splitDash tl).1), (splitDash tl).2)

/-- Numeric value of a decimal digit string (used to invert toDec). -/
def decVal (l : List Char) : Nat :=
  l.foldl (fun a c => 10 * a + (c.toNat - 48)) 0

/- ===== concrete inputs used by the witnesses ===== -/

/-- Concrete totals used by the monotonicity witness: one unmitigated
critical finding and one partially mitigated high finding. -/
def totalsW : RiskTotals :=
  fun s m =>
    if s = Severity.critical ∧ m = Mitigation.noMit then 1
    else if s = Severity.high ∧ m = Mitigation.halfMit then 1
    else 0

/-- Response set answering only the incident-response question, with
"No". -/
def respNo1 : ResponseSet :=
  fun q => if q = "Do you have an incident response plan?" then some ["No"] else none

/-- Response set giving the contradictory answer of the test suite to the
incident-response question. -/
def respContra1 : ResponseSet :=
  fun q =>
    if q = "Do you have an incident response plan?" then some ["Yes", "No"]
    else none

/-- Response set answering "No" to every question (the five-of-five
red-flag scenario of the test suite). -/
def respAllNo : ResponseSet := fun _ => some ["No"]

/-- Narrative without any recognized severity heading, used by the parser
witness. -/
def narrativeW : String :=
  "This assessment found nothing notable.\n- stray bullet [mitigation: full]\nEnd of report."

/- ===== helper lemmas ===== -/

/-- Rounding is monotone on rationals. -/
theorem roundMonoQ {a b : ℚ} (h : a ≤ b) : round a ≤ round b := by
  rw [round_eq, round_eq]
  exact Int.floor_le_floor (by linarith)

/-- Any clamped-then-rounded rational lies between 0 and 100. -/
theorem clampRound_bounds (q : ℚ) :
    0 ≤ round (max 0 (min 100 q)) ∧ round (max 0 (min 100 q)) ≤ 100 := by
  constructor
  · have h : round ((0 : ℚ)) ≤ round (max 0 (min 100 q)) :=
      roundMonoQ (le_max_left _ _)
    simpa using h
  · have hle : max 0 (min 100 q) ≤ (100 : ℚ) :=
      max_le (by norm_num) (min_le_left _ _)
    have h : round (max 0 (min 100 q)) ≤ round ((100 : ℚ)) := roundMonoQ hle
    simpa using h

/-- Smaller deduction means a score at least as large. -/
theorem posture_le_of_deduction_le {t1 t2 : RiskTotals}
    (h : deduction t2 ≤ deduction t1) : posturePercent t1 ≤ posturePercent t2 :=
  roundMonoQ (max_le_max le_rfl (min_le_min le_rfl (by linarith)))

/-- Every severity weight is positive. -/
theorem severityWeight_pos (s : Severity) : 0 < severityWeight s := by
  cases s <;> norm_num [severityWeight]

/-- Adding one finding to a bucket adds that bucket's weighted deduction. -/
theorem deduction_bump (t : RiskTotals) (s : Severity) (m : Mitigation) :
    deduction (bumpBucket t s m) =
      deduction t + severityWeight s * mitigationMultiplier m := by
  cases s <;> cases m <;>
    (simp [deduction, bumpBucket, sevList, mitList, severityWeight,
      mitigationMultiplier]; try (push_cast; ring))

/-- Moving one finding from unmitigated to partially mitigated removes half
the severity weight from the deduction. -/
theorem deduction_move_none_half (t : RiskTotals) (s : Severity)
    (h : 1 ≤ t s Mitigation.noMit) :
    deduction (moveBucket t s .noMit .halfMit) =
      deduction t - severityWeight s / 2 := by
  cases s <;>
    (simp [deduction, moveBucket, sevList, mitList, severityWeight,
      mitigationMultiplier]; try (push_cast [Nat.cast_sub h]; ring))

/-- Moving one finding from partially to fully mitigated removes the other
half of the severity weight from the deduction. -/
theorem deduction_move_partial_full (t : RiskTotals) (s : Severity)
    (h : 1 ≤ t s Mitigation.halfMit) :
    deduction (moveBucket t s .halfMit .fullMit) =
      deduction t - severityWeight s / 2 := by
  cases s <;>
    (simp [deduction, moveBucket, sevList, mitList, severityWeight,
      mitigationMultiplier]; try (push_cast [Nat.cast_sub h]; ring))

/- ===== C1 ===== -/

/-- C1: for every totals input the posture score equals 100 minus the sum
over all severity/mitigation buckets of count times severity weight
(Critical 40, High 20, Medium 10, Low 5) times mitigation multiplier
(none 1, partial 1/2, full 0), clamped to the interval from 0 to 100 and
rounded; in particular a single partially mitigated finding deducts half
its severity weight and a single fully mitigated finding deducts
nothing. -/
theorem posture_score_spec_formula :
    (∀ t : RiskTotals, posturePercent t = specScore t)
    ∧ (∀ s : Severity,
        posturePercent (singleBucket s .halfMit) =
          round ((100 : ℚ) - severityWeight s / 2))
    ∧ (∀ s : Severity, posturePercent (singleBucket s .fullMit) = 100) := by
  refine ⟨?_, ?_, ?_⟩
  · intro t
    unfold posturePercent specScore
    congr 2
    simp [deduction, bucketList, sevList, mitList]
    ring
  · intro s
    cases s <;>
      (simp [posturePercent, deduction, sevList, mitList, singleBucket,
        severityWeight, mitigationMultiplier]; norm_num [round_eq])
  · intro s
    cases s <;>
      (simp [posturePercent, deduction, sevList, mitList, singleBucket,
        severityWeight, mitigationMultiplier]; try norm_num [round_eq])

/- ===== C6 ===== -/

/-- C6: the posture score is monotone — adding an unmitigated finding at
any severity never increases the score, and moving one finding's
mitigation from none to partial, or from partial to full, never decreases
it. -/
theorem posture_score_monotone :
    (∀ (t : RiskTotals) (s : Severity),
      posturePercent (bumpBucket t s .noMit) ≤ posturePercent t)
    ∧ (∀ (t : RiskTotals) (s : Severity), 1 ≤ t s Mitigation.noMit →
        posturePercent t ≤ posturePercent (moveBucket t s .noMit .halfMit))
    ∧ (∀ (t : RiskTotals) (s : Severity), 1 ≤ t s Mitigation.halfMit →
        posturePercent t ≤ posturePercent (moveBucket t s .halfMit .fullMit)) := by
  refine ⟨?_, ?_, ?_⟩
  · intro t s
    apply posture_le_of_deduction_le
    rw [deduction_bump]
    have := severityWeight_pos s
    simp [mitigationMultiplier]
    linarith
  · intro t s h
    apply posture_le_of_deduction_le
    rw [deduction_move_none_half t s h]
    have := severityWeight_pos s
    linarith
  · intro t s h
    apply posture_le_of_deduction_le
    rw [deduction_move_partial_full t s h]
    have := severityWeight_pos s
    linarith

/-- Witness for C6 at concrete totals. -/
theorem posture_score_monotone_witness :
    posturePercent (bumpBucket totalsW .medium .noMit) ≤ posturePercent totalsW
    ∧ (1 ≤ totalsW Severity.critical Mitigation.noMit
        ∧ posturePercent totalsW ≤
            posturePercent (moveBucket totalsW .critical .noMit .halfMit))
    ∧ (1 ≤ totalsW Severity.high Mitigation.halfMit
        ∧ posturePercent totalsW ≤
            posturePercent (moveBucket totalsW .high .halfMit .fullMit)) :=
  ⟨posture_score_monotone.1 totalsW .medium,
   ⟨by decide, posture_score_monotone.2.1 totalsW .critical (by decide)⟩,
   ⟨by decide, posture_score_monotone.2.2 totalsW .high (by decide)⟩⟩

/- ===== C5 ===== -/

/-- Counterexample to C5 as stated: at the audit-detail normalization point
normSev an unrecognized severity is mapped to "Low", not "Medium". -/
theorem norm_sev_default_counterexample :
    normSev (some "unrecognized") = "Low"
    ∧ normSev (some "unrecognized") ≠ "Medium" := by
  constructor <;> decide

/-- C5 (amended): every normalized severity is one of Critical, High,
Medium, Low and every normalized mitigation one of none, partial, full;
unrecognized or missing severities map to "Medium" at the
continue-audit point (normSeverity) but to "Low" at the audit-detail point
(normSev); unrecognized or missing mitigations map to "none" at both
points. -/
theorem norm_defaults_amended :
    ∀ s : Option String,
      (normSeverity s ∈ (["Critical", "High", "Medium", "Low"] : List String)
        ∧ normSev s ∈ (["Critical", "High", "Medium", "Low"] : List String)
        ∧ normMitigation s ∈ (["none", "partial", "full"] : List String)
        ∧ normMit s ∈ (["none", "partial", "full"] : List String))
      ∧ (¬ recognizedSeverityInput s →
          normSeverity s = "Medium" ∧ normSev s = "Low")
      ∧ (¬ recognizedMitigationInput s →
          normMitigation s = "none" ∧ normMit s = "none") := by
  intro s
  refine ⟨⟨?_, ?_, ?_, ?_⟩, ?_, ?_⟩
  · unfold normSeverity
    split_ifs <;> simp
  · unfold normSev
    split_ifs <;> simp
  · unfold normMitigation
    split_ifs <;> simp
  · unfold normMit
    split_ifs <;> simp
  · intro h
    simp [recognizedSeverityInput] at h
    constructor
    · simp [normSeverity, h.1, h.2.1, h.2.2.1, h.2.2.2]
    · simp [normSev, h.1, h.2.1, h.2.2.1, h.2.2.2]
  · intro h
    simp [recognizedMitigationInput] at h
    constructor
    · simp [normMitigation, h.2.1, h.2.2]
    · simp [normMit, h.2.1, h.2.2]

/-- Witness for the amended C5 at a concrete unrecognized input. -/
theorem norm_defaults_amended_witness :
    ¬ recognizedSeverityInput (some "garbled")
    ∧ normSeverity (some "garbled") = "Medium"
    ∧ normSev (some "garbled") = "Low"
    ∧ ¬ recognizedMitigationInput (some "garbled")
    ∧ normMitigation (some "garbled") = "none" :=
  ⟨by decide,
   ((norm_defaults_amended (some "garbled")).2.1 (by decide)).1,
   ((norm_defaults_amended (some "garbled")).2.1 (by decide)).2,
   by decide,
   ((norm_defaults_amended (some "garbled")).2.2 (by decide)).1⟩

/- ===== C7 ===== -/

/-- C7: for every input — null counts, missing fields, arbitrary (even
negative) stored counts, and non-finite baseline numbers — both score
computations return an integer between 0 and 100. -/
theorem score_bounds_all_inputs :
    (∀ counts : Option CountsRec,
      0 ≤ computeScoreFromCounts counts ∧ computeScoreFromCounts counts ≤ 100)
    ∧ (∀ b : BaselineResult, 0 ≤ safeScore b ∧ safeScore b ≤ 100) := by
  constructor
  · intro counts
    unfold computeScoreFromCounts
    exact clampRound_bounds _
  · intro b
    unfold safeScore
    rcases b.score with q | _
    · constructor
      · exact le_max_left _ _
      · exact max_le (by norm_num) (min_le_left _ _)
    · rcases safeOverall b with _ | p
      · simp
      · constructor
        · exact le_max_left _ _
        · exact max_le (by norm_num) (min_le_left _ _)

/- ===== C9 ===== -/

/-- C9: the score stored in the audits insert payload is an integer between
0 and 100 and follows the fixed fallback chain — the rounded, clamped
baseline score when finite; else 100 minus the rounded overall percentage,
clamped, when that is finite; else exactly 0. -/
theorem audit_insert_score_chain :
    ∀ b : BaselineResult,
      (0 ≤ (auditInsertPayload b).score ∧ (auditInsertPayload b).score ≤ 100)
      ∧ (∀ q : ℚ, b.score = .finite q →
          (auditInsertPayload b).score = max 0 (min 100 (round q)))
      ∧ (∀ p : ℚ, b.score = .notFinite → b.overallPct = .finite p →
          (auditInsertPayload b).score = max 0 (min 100 (100 - round p)))
      ∧ (b.score = .notFinite → b.overallPct = .notFinite →
          (auditInsertPayload b).score = 0) := by
  intro b
  refine ⟨score_bounds_all_inputs.2 b, ?_, ?_, ?_⟩
  · intro q hq
    simp [auditInsertPayload, safeScore, hq]
  · intro p hs hp
    simp [auditInsertPayload, safeScore, safeOverall, hs, hp]
  · intro hs hp
    simp [auditInsertPayload, safeScore, safeOverall, hs, hp]

/-- Witness for C9 exercising all three branches of the fallback chain at
concrete inputs. -/
theorem audit_insert_score_chain_witness :
    (auditInsertPayload ⟨.finite 87, .notFinite⟩).score =
        max 0 (min 100 (round ((87 : ℚ))))
    ∧ (auditInsertPayload ⟨.notFinite, .finite 250⟩).score =
        max 0 (min 100 (100 - round ((250 : ℚ))))
    ∧ (auditInsertPayload ⟨.notFinite, .notFinite⟩).score = 0 :=
  ⟨(audit_insert_score_chain ⟨.finite 87, .notFinite⟩).2.1 87 rfl,
   (audit_insert_score_chain ⟨.notFinite, .finite 250⟩).2.2.1 250 rfl rfl,
   (audit_insert_score_chain ⟨.notFinite, .notFinite⟩).2.2.2 rfl rfl⟩

/- ===== string-disjointness helpers for the Builder texts ===== -/

/-- Strings with equal character data are equal. -/
theorem string_data_inj {s t : String} (h : s.data = t.data) : s = t := by
  cases s
  cases t
  exact congrArg String.mk h

/-- Character data of a missing-control text. -/
theorem missingText_data (q : String) :
    (missingText q).data = "control missing: ".data ++ q.data := by
  simp [missingText, String.data_append]

/-- Character data of a contradiction text. -/
theorem contraText_data (q : String) :
    (contraText q).data = "conflicting answers detected: ".data ++ q.data := by
  simp [contraText, String.data_append]

/-- Missing-control texts determine their question. -/
theorem missingText_inj {q1 q2 : String} (h : missingText q1 = missingText q2) :
    q1 = q2 := by
  have hd := congrArg String.data h
  rw [missingText_data, missingText_data] at hd
  exact string_data_inj (List.append_cancel_left hd)

/-- Contradiction texts determine their question. -/
theorem contraText_inj {q1 q2 : String} (h : contraText q1 = contraText q2) :
    q1 = q2 := by
  have hd := congrArg String.data h
  rw [contraText_data, contraText_data] at hd
  exact string_data_inj (List.append_cancel_left hd)

/-- Two strings differing at some character position are distinct. -/
theorem string_ne_of_data_get {s t : String} (i : Nat)
    (h : ¬ s.data[i]? = t.data[i]?) : s ≠ t :=
  fun he => h (by rw [he])

/-- A missing-control text is never a contradiction text (they differ at the
fourth character of their fixed prefixes). -/
theorem missingText_ne_contra (q1 q2 : String) : missingText q1 ≠ contraText q2 := by
  apply string_ne_of_data_get 3
  rw [missingText_data, contraText_data]
  simp [List.getElem?_append]

/-- The red-flag text is never a missing-control text (they differ at the
first character). -/
theorem redFlagText_ne_missing (q : String) : redFlagText ≠ missingText q := by
  apply string_ne_of_data_get 0
  rw [missingText_data]
  simp [List.getElem?_append, redFlagText]

/-- The red-flag text is never a contradiction text. -/
theorem redFlagText_ne_contra (q : String) : redFlagText ≠ contraText q := by
  apply string_ne_of_data_get 0
  rw [contraText_data]
  simp [List.getElem?_append, redFlagText]

/-- The red-flag finding is not attributed to any control. -/
theorem controlFilter_redFlag (q : String) :
    controlFilter q redFlagFinding = false := by
  simp [controlFilter, redFlagFinding]
  exact ⟨redFlagText_ne_missing q, redFlagText_ne_contra q⟩

/-- A finding emitted for a control with a different question never passes
the control filter. -/
theorem controlFilter_other {r : ResponseSet} {c : Control} {q : String}
    (hne : c.question ≠ q) :
    ∀ f, perControlFinding r c = some f → controlFilter q f = false := by
  intro f hf
  unfold perControlFinding at hf
  split_ifs at hf
  · simp only [Option.some.injEq] at hf
    subst hf
    simp [controlFilter]
    exact ⟨fun h => hne (missingText_inj h), missingText_ne_contra _ _⟩
  · simp only [Option.some.injEq] at hf
    subst hf
    simp [controlFilter]
    exact ⟨fun h => missingText_ne_contra q c.question h.symm,
      fun h => hne (contraText_inj h)⟩

/-- Splitting a filterMap at its head. -/
theorem filterMap_cons_toList {α β : Type} (g : α → Option β) (d : α)
    (tl : List α) : (d :: tl).filterMap g = (g d).toList ++ tl.filterMap g := by
  cases h : g d <;> simp [List.filterMap_cons, h]

/-- No control with a different question contributes to the control
filter. -/
theorem filter_filterMap_nil (r : ResponseSet) (q : String) :
    ∀ L : List Control, (∀ e ∈ L, e.question ≠ q) →
      (L.filterMap (perControlFinding r)).filter (controlFilter q) = [] := by
  intro L
  induction L with
  | nil => intro _; simp
  | cons d tl ih =>
    intro h
    rw [filterMap_cons_toList, List.filter_append]
    have hd : (perControlFinding r d).toList.filter (controlFilter q) = [] := by
      cases hpc : perControlFinding r d with
      | none => simp
      | some f =>
        simp [List.filter_cons,
          controlFilter_other (h d (List.mem_cons_self d tl)) f hpc]
    rw [hd, List.nil_append]
    exact ih (fun e he => h e (List.mem_cons_of_mem d he))

/-- Under distinct question keys, only the control itself contributes to its
control filter. -/
theorem filter_filterMap_single (r : ResponseSet) :
    ∀ (L : List Control) (c : Control), (L.map Control.question).Nodup →
      c ∈ L →
      (L.filterMap (perControlFinding r)).filter (controlFilter c.question)
        = (perControlFinding r c).toList.filter (controlFilter c.question) := by
  intro L
  induction L with
  | nil => intro c _ hc; simp at hc
  | cons d tl ih =>
    intro c hnd hc
    rw [List.map_cons, List.nodup_cons] at hnd
    obtain ⟨hdq, hndtl⟩ := hnd
    rw [filterMap_cons_toList, List.filter_append]
    rcases List.mem_cons.mp hc with rfl | hctl
    · have htl :
          (tl.filterMap (perControlFinding r)).filter (controlFilter c.question)
            = [] := by
        apply filter_filterMap_nil
        intro e he heq
        apply hdq
        rw [← heq]
        exact List.mem_map_of_mem Control.question he
      rw [htl, List.append_nil]
    · have hne : d.question ≠ c.question := by
        intro heq
        apply hdq
        rw [heq]
        exact List.mem_map_of_mem Control.question hctl
      have hd : (perControlFinding r d).toList.filter (controlFilter c.question)
          = [] := by
        cases hpc : perControlFinding r d with
        | none => simp
        | some f => simp [List.filter_cons, controlFilter_other hne f hpc]
      rw [hd, List.nil_append]
      exact ih c hndtl hctl

/-- In the full Builder output, the findings attributed to a control are
exactly those its own classification emits. -/
theorem filter_build_single (cat : List Control) (r : ResponseSet) (c : Control)
    (hnd : (cat.map Control.question).Nodup) (hc : c ∈ cat) :
    (buildBaselineFindings cat r).filter (controlFilter c.question)
      = (perControlFinding r c).toList.filter (controlFilter c.question) := by
  unfold buildBaselineFindings
  rw [List.filter_append]
  have hred :
      ((if redFlagTripped cat r then [redFlagFinding] else []).filter
        (controlFilter c.question)) = [] := by
    cases redFlagTripped cat r <;> simp [List.filter_cons, controlFilter_redFlag]
  rw [hred, List.append_nil]
  exact filter_filterMap_single r cat c hnd hc

/- ===== C2 ===== -/

/-- C2: whenever a catalog control's question is answered exactly with
["No"], the Builder emits exactly one finding attributable to that control;
it carries the control's default severity, mitigation none, and a text
containing "control missing". -/
theorem builder_missing_control_finding (cat : List Control) (r : ResponseSet)
    (c : Control) (hnd : (cat.map Control.question).Nodup) (hc : c ∈ cat)
    (hr : r c.question = some ["No"]) :
    (buildBaselineFindings cat r).filter (controlFilter c.question)
      = [{ text := missingText c.question, severity := c.defaultSeverity,
           likelihood := none, mitigation := .noMit }]
    ∧ "control missing".data <:+: (missingText c.question).data := by
  have hcl : classifyControl r c = .missing := by
    unfold classifyControl
    rw [hr]
    decide
  constructor
  · rw [filter_build_single cat r c hnd hc]
    simp [perControlFinding, hcl, List.filter_cons, controlFilter]
  · have h1 : "control missing".data <+: "control missing: ".data := by decide
    have h2 : "control missing: ".data <+: (missingText c.question).data := by
      rw [missingText_data]
      exact List.prefix_append _ _
    exact (h1.trans h2).isInfix

/-- Witness for C2: the incident-response control of the organization
catalog answered with ["No"] yields exactly its missing finding. -/
theorem builder_missing_control_finding_witness :
    ((catOrg.map Control.question).Nodup
      ∧ (⟨"Do you have an incident response plan?", Severity.critical, true⟩ : Control) ∈ catOrg
      ∧ respNo1 "Do you have an incident response plan?" = some ["No"])
    ∧ (buildBaselineFindings catOrg respNo1).filter
        (controlFilter "Do you have an incident response plan?")
        = [{ text := missingText "Do you have an incident response plan?"
           , severity := Severity.critical
           , likelihood := none
           , mitigation := .noMit }] :=
  ⟨⟨by decide, by decide, by decide⟩,
   (builder_missing_control_finding catOrg respNo1
      ⟨"Do you have an incident response plan?", Severity.critical, true⟩
      (by decide) (by decide) (by decide)).1⟩

/- ===== C3 ===== -/

/-- C3: whenever a control's answer list contains the affirmative sentinel
together with another non-N/A label, the Builder emits exactly one finding
attributable to that control, with mitigation partial, the control's
default severity, and a text containing "conflicting answers detected". -/
theorem builder_contradiction_finding (cat : List Control) (r : ResponseSet)
    (c : Control) (ans : List String)
    (hnd : (cat.map Control.question).Nodup) (hc : c ∈ cat)
    (hr : r c.question = some ans) (hyes : yesSentinel ∈ ans)
    (hother : ∃ a ∈ ans, a ≠ yesSentinel ∧ a ≠ naSentinel) :
    (buildBaselineFindings cat r).filter (controlFilter c.question)
      = [{ text := contraText c.question, severity := c.defaultSeverity,
           likelihood := none, mitigation := .halfMit }]
    ∧ "conflicting answers detected".data <:+: (contraText c.question).data := by
  have hcl : classifyControl r c = .contradiction := by
    unfold classifyControl
    rw [hr]
    simp only [Option.getD_some]
    unfold classifyAnswers
    rw [if_neg (List.ne_nil_of_mem hyes), if_neg, if_pos hyes, if_pos hother]
    intro hall
    exact absurd (hall _ hyes) (by decide)
  constructor
  · rw [filter_build_single cat r c hnd hc]
    simp [perControlFinding, hcl, List.filter_cons, controlFilter]
  · have h1 :
        "conflicting answers detected".data <+:
          "conflicting answers detected: ".data := by decide
    have h2 : "conflicting answers detected: ".data <+: (contraText c.question).data := by
      rw [contraText_data]
      exact List.prefix_append _ _
    exact (h1.trans h2).isInfix

/-- Witness for C3: the contradictory ["Yes", "No"] answer of the test suite
yields exactly the partial finding. -/
theorem builder_contradiction_finding_witness :
    (respContra1 "Do you have an incident response plan?" = some ["Yes", "No"]
      ∧ yesSentinel ∈ (["Yes", "No"] : List String)
      ∧ ∃ a ∈ (["Yes", "No"] : List String), a ≠ yesSentinel ∧ a ≠ naSentinel)
    ∧ (buildBaselineFindings catOrg respContra1).filter
        (controlFilter "Do you have an incident response plan?")
        = [{ text := contraText "Do you have an incident response plan?"
           , severity := Severity.critical
           , likelihood := none
           , mitigation := .halfMit }] :=
  ⟨⟨by decide, by decide, by decide⟩,
   (builder_contradiction_finding catOrg respContra1
      ⟨"Do you have an incident response plan?", Severity.critical, true⟩
      ["Yes", "No"] (by decide) (by decide) (by decide) (by decide)
      (by decide)).1⟩

/- ===== C4 ===== -/

/-- A finding emitted for a control whose texts do not contain the red-flag
phrase never passes the phrase filter. -/
theorem phraseFilter_perControl {r : ResponseSet} {c : Control}
    (hm : ¬ redFlagPhrase.data <:+: (missingText c.question).data)
    (hcn : ¬ redFlagPhrase.data <:+: (contraText c.question).data) :
    ∀ f, perControlFinding r c = some f → phraseFilter f = false := by
  intro f hf
  unfold perControlFinding at hf
  split_ifs at hf
  · simp only [Option.some.injEq] at hf
    subst hf
    simp [phraseFilter]
    exact hm
  · simp only [Option.some.injEq] at hf
    subst hf
    simp [phraseFilter]
    exact hcn

/-- No per-control finding carries the red-flag phrase when no control text
does. -/
theorem filter_phrase_filterMap_nil (r : ResponseSet) :
    ∀ L : List Control,
      (∀ c ∈ L, ¬ redFlagPhrase.data <:+: (missingText c.question).data
        ∧ ¬ redFlagPhrase.data <:+: (contraText c.question).data) →
      (L.filterMap (perControlFinding r)).filter phraseFilter = [] := by
  intro L
  induction L with
  | nil => intro _; simp
  | cons d tl ih =>
    intro h
    rw [filterMap_cons_toList, List.filter_append]
    have hd : (perControlFinding r d).toList.filter phraseFilter = [] := by
      obtain ⟨hm, hcn⟩ := h d (List.mem_cons_self d tl)
      cases hpc : perControlFinding r d with
      | none => simp
      | some f => simp [List.filter_cons, phraseFilter_perControl hm hcn f hpc]
    rw [hd, List.nil_append]
    exact ih (fun e he => h e (List.mem_cons_of_mem d he))

/-- C4: when no catalog question smuggles the red-flag phrase into a
per-control text, the Builder output contains the synthetic red-flag
finding — exactly one finding carrying the phrase, with severity Critical
and mitigation none — precisely when the missing critical-weighted controls
reach the super-majority threshold, and no such finding otherwise. -/
theorem builder_red_flag_iff (cat : List Control) (r : ResponseSet)
    (hfree : ∀ c ∈ cat,
      ¬ redFlagPhrase.data <:+: (missingText c.question).data
      ∧ ¬ redFlagPhrase.data <:+: (contraText c.question).data) :
    ((buildBaselineFindings cat r).filter phraseFilter
      = if redFlagTripped cat r then [redFlagFinding] else [])
    ∧ (redFlagTripped cat r = true ↔
        (0 < (cat.filter Control.criticalWeight).length
          ∧ 4 * (cat.filter Control.criticalWeight).length
              ≤ 5 * missingCritCount cat r))
    ∧ redFlagFinding.severity = .critical
    ∧ redFlagFinding.mitigation = .noMit
    ∧ redFlagPhrase.data <:+: redFlagFinding.text.data := by
  refine ⟨?_, ?_, rfl, rfl, by decide⟩
  · unfold buildBaselineFindings
    rw [List.filter_append, filter_phrase_filterMap_nil r cat hfree,
      List.nil_append]
    have hp : phraseFilter redFlagFinding = true := by decide
    cases redFlagTripped cat r
    · simp
    · simp [List.filter_cons, hp]
  · simp [redFlagTripped, Bool.and_eq_true, decide_eq_true_eq]

/-- Witness for C4: with every organization control answered "No" the
red-flag finding is present (the five-of-five case); with only one of five
missing it is absent. -/
theorem builder_red_flag_iff_witness :
    ((buildBaselineFindings catOrg respAllNo).filter phraseFilter
      = if redFlagTripped catOrg respAllNo then [redFlagFinding] else [])
    ∧ redFlagTripped catOrg respAllNo = true
    ∧ ((buildBaselineFindings catOrg respNo1).filter phraseFilter
      = if redFlagTripped catOrg respNo1 then [redFlagFinding] else [])
    ∧ redFlagTripped catOrg respNo1 = false :=
  ⟨(builder_red_flag_iff catOrg respAllNo (by decide)).1, by decide,
   (builder_red_flag_iff catOrg respNo1 (by decide)).1, by decide⟩

/- ===== C8 ===== -/

/-- The parser state machine never leaves the initial state, and emits
nothing, on lines without a recognized heading. -/
theorem parse_foldl_no_heading :
    ∀ (ls : List (List Char)) (fs : List Finding),
      (∀ l ∈ ls, headingOf l = none) →
      ls.foldl parseStep (none, fs) = (none, fs) := by
  intro ls
  induction ls with
  | nil => intro fs _; rfl
  | cons l tl ih =>
    intro fs h
    rw [List.foldl_cons]
    have hl := h l (List.mem_cons_self l tl)
    have hstep : parseStep (none, fs) l = (none, fs) := by
      cases hb : bulletBody l with
      | some body => simp [parseStep, hb]
      | none => simp [parseStep, hb, hl]
    rw [hstep]
    exact ih fs (fun x hx => h x (List.mem_cons_of_mem l hx))

/-- C8: parseFindings is a total function of the narrative, and on a
narrative none of whose lines is a recognized severity heading it returns
the empty list. -/
theorem parse_findings_no_heading_empty (narrative : String)
    (h : ∀ l ∈ splitLines narrative.data, headingOf l = none) :
    parseFindings narrative = [] := by
  unfold parseFindings
  rw [parse_foldl_no_heading (splitLines narrative.data) [] h]

/-- Witness for C8: a concrete heading-free narrative (prose, a stray
bullet, prose) parses to the empty list. -/
theorem parse_findings_no_heading_empty_witness :
    (∀ l ∈ splitLines narrativeW.data, headingOf l = none)
    ∧ parseFindings narrativeW = [] :=
  ⟨by decide, parse_findings_no_heading_empty narrativeW (by decide)⟩

/- ===== C10 ===== -/

/-- Hexadecimal digits are never a dash. -/
theorem hexDigitChar_ne_dash (n : Nat) : hexDigitChar n ≠ '-' := by
  unfold hexDigitChar
  rw [List.getD_eq_getElem?_getD]
  cases h : hexDigits[n]? with
  | none => simp [h]
  | some c =>
    simp only [h, Option.getD_some]
    have hc : c ∈ hexDigits := by
      rw [List.getElem?_eq_some] at h
      obtain ⟨hn, rfl⟩ := h
      exact List.getElem_mem hn
    exact (by decide : ∀ x ∈ hexDigits, x ≠ '-') c hc

/-- No character of a hex rendering is a dash. -/
theorem toHex_ne_dash (n : Nat) : ∀ c ∈ toHex n, c ≠ '-' := by
  induction n using toHex.induct with
  | case1 n h =>
    intro c hc
    rw [toHex, if_pos h] at hc
    simp at hc
    subst hc
    exact hexDigitChar_ne_dash n
  | case2 n h ih =>
    intro c hc
    rw [toHex, if_neg h] at hc
    rcases List.mem_append.mp hc with hc2 | hc2
    · exact ih c hc2
    · simp at hc2
      subst hc2
      exact hexDigitChar_ne_dash _

/-- Evaluation of decVal across an appended digit. -/
theorem decVal_append_digit (l : List Char) (d : Char) :
    decVal (l ++ [d]) = 10 * decVal l + (d.toNat - 48) := by
  unfold decVal
  rw [List.foldl_append]
  simp [List.foldl]

/-- Code of a decimal digit below ten. -/
theorem decDigitChar_toNat {n : Nat} (h : n < 10) :
    (decDigitChar n).toNat - 48 = n := by
  interval_cases n <;> decide

/-- decVal inverts toDec. -/
theorem decVal_toDec (n : Nat) : decVal (toDec n) = n := by
  induction n using toDec.induct with
  | case1 n h =>
    rw [toDec, if_pos h]
    show decVal [decDigitChar n] = n
    unfold decVal
    simp [List.foldl]
    exact decDigitChar_toNat h
  | case2 n h ih =>
    rw [toDec, if_neg h]
    rw [decVal_append_digit, ih]
    have h10 : n % 10 < 10 := Nat.mod_lt _ (by omega)
    rw [decDigitChar_toNat h10]
    omega

/-- Decimal renderings are injective. -/
theorem toDec_inj {a b : Nat} (h : toDec a = toDec b) : a = b := by
  have h2 := congrArg decVal h
  rwa [decVal_toDec, decVal_toDec] at h2

/-- splitDash recovers the two halves of a dash-joined pair whose first half
is dash-free. -/
theorem splitDash_append (b rest : List Char) (hb : ∀ c ∈ b, c ≠ '-') :
    splitDash (b ++ '-' :: rest) = (b, rest) := by
  induction b with
  | nil => simp [splitDash]
  | cons c tl ih =>
    have hc : c ≠ '-' := hb c (List.mem_cons_self c tl)
    have ih2 := ih (fun x hx => hb x (List.mem_cons_of_mem c hx))
    simp [splitDash, hc, ih2]

/-- A dash-joined key determines its base and its counter rendering. -/
theorem key_parts_inj {b1 b2 r1 r2 : List Char}
    (h1 : ∀ c ∈ b1, c ≠ '-') (h2 : ∀ c ∈ b2, c ≠ '-')
    (he : b1 ++ '-' :: r1 = b2 ++ '-' :: r2) : b1 = b2 ∧ r1 = r2 := by
  have h := congrArg splitDash he
  rw [splitDash_append b1 r1 h1, splitDash_append b2 r2 h2] at h
  exact ⟨congrArg Prod.fst h, congrArg Prod.snd h⟩

/-- Signature bases are dash-free. -/
theorem sigBase_ne_dash (f : RawFinding) : ∀ c ∈ sigBase f, c ≠ '-' :=
  toHex_ne_dash _

/-- Invariant of the key builder: the emitted keys are distinct, and every
emitted key splits into a dash-free base and a counter strictly above the
incoming occurrence count of that base. -/
theorem buildKeysAux_spec :
    ∀ (raws : List RawFinding) (occ : List Char → Nat),
      (buildKeysAux occ raws).Nodup
      ∧ ∀ k ∈ buildKeysAux occ raws, ∃ b m, k.data = b ++ '-' :: toDec m
          ∧ (∀ c ∈ b, c ≠ '-') ∧ occ b < m := by
  intro raws
  induction raws with
  | nil =>
    intro occ
    constructor
    · simp [buildKeysAux]
    · intro k hk
      simp [buildKeysAux] at hk
  | cons f tl ih =>
    intro occ
    obtain ⟨ihnd, ihspec⟩ :=
      ih (fun x => if x = sigBase f then occ (sigBase f) + 1 else occ x)
    constructor
    · simp only [buildKeysAux]
      refine List.nodup_cons.mpr ⟨?_, ihnd⟩
      intro hmem
      obtain ⟨b, m, hk, hb, hlt⟩ := ihspec _ hmem
      have hk2 : sigBase f ++ '-' :: toDec (occ (sigBase f) + 1)
          = b ++ '-' :: toDec m := hk
      obtain ⟨hbase, hdec⟩ := key_parts_inj (sigBase_ne_dash f) hb hk2
      have hm := toDec_inj hdec
      rw [← hbase] at hlt
      simp at hlt
      omega
    · intro k hk
      simp only [buildKeysAux, List.mem_cons] at hk
      rcases hk with rfl | hk
      · exact ⟨sigBase f, occ (sigBase f) + 1, rfl, sigBase_ne_dash f, by omega⟩
      · obtain ⟨b, m, hkd, hb, hlt⟩ := ihspec k hk
        refine ⟨b, m, hkd, hb, ?_⟩
        by_cases hbb : b = sigBase f
        · subst hbb
          simp at hlt
          omega
        · simp [hbb] at hlt
          omega

/-- The key builder emits one key per rendered finding. -/
theorem buildKeysAux_length :
    ∀ (raws : List RawFinding) (occ : List Char → Nat),
      (buildKeysAux occ raws).length = raws.length := by
  intro raws
  induction raws with
  | nil => intro _; rfl
  | cons f tl ih => intro occ; simp only [buildKeysAux, List.length_cons, ih]

/-- C10: for every stored baseline findings list — duplicates with identical
severity, mitigation, likelihood and text included — the generated React
keys are pairwise distinct, one key per finding. -/
theorem finding_keys_nodup :
    ∀ raws : List RawFinding,
      (findingKeys raws).Nodup ∧ (findingKeys raws).length = raws.length :=
  fun raws =>
    ⟨(buildKeysAux_spec raws (fun _ => 0)).1, buildKeysAux_length raws _⟩
